import Mathlib

/-!
Verification of the `openssh_key` library (OpenSSH key parser).

The development shallowly embeds the repository's data model:

* the Pascal-style byte-stream codec (`src/openssh_key/pascal_style_byte_stream.py`
  is absent from the source snapshot; its operations are modelled from the
  specification, sections 4.1 and 6, and are marked `Modelled from the spec:`);
* the key-parameter classes and the flat algorithm registry
  (`src/openssh_key/key_params.py`);
* the key envelope (`src/openssh_key/key.py`);
* the conversion resolution of `src/openssh_key/key_params/common.py` and the
  DSS parameter classes of `src/openssh_key/key_params/dss.py`;
* the full algorithm factory of the package layout, whose module is absent from
  the source snapshot (only its test file is present); it is modelled from the
  specification, section 4.4.

Byte strings are `List Nat` (each entry one octet).  Python `str` values are
byte strings as well (their UTF-8 encodings); ASCII literals are written with
the helper `ascii`.
-/

deriving instance DecidableEq for Except

set_option maxRecDepth 8000

namespace OpensshKey

/-- ASCII byte string of a Lean string literal (all identifiers in the
repository are ASCII, where `Char.toNat` coincides with the UTF-8 octet). -/
def ascii (s : String) : List Nat :=
  s.toList.map Char.toNat

/-- Modelled from the spec: the wire primitive type tags of the Pascal-style
byte stream (`PascalStyleFormatInstruction`); the three tags used by the
key-parameter schemas in the source snapshot. -/
inductive PascalStyleFormatInstruction
  | string
  | bytes
  | mpint
deriving DecidableEq

/-- A Python runtime value stored in a parameters or header dictionary:
an `int`, a `bytes` object, or a `str` (kept as its UTF-8 octets). -/
inductive Value
  | int (i : Int)
  | bytes (b : List Nat)
  | str (s : List Nat)
deriving DecidableEq

/-- A Python `dict` with string keys, as an insertion-ordered association
list; lookup takes the first binding. -/
abbrev Dict := List (String × Value)

/-- An ordered format-instructions dictionary: field name to wire type tag. -/
abbrev FormatInstructionsDict := List (String × PascalStyleFormatInstruction)

/-- Python `dict.__eq__`: two dictionaries are equal when they agree, as
finite maps, on every key of either (insertion order is ignored). -/
def dict_beq (a b : Dict) : Bool :=
  (a.map Prod.fst ++ b.map Prod.fst).all fun s => a.lookup s == b.lookup s

/-! ## Byte-stream codec, modelled from the spec (sections 4.1 and 6) -/

/-- Modelled from the spec: big-endian base-256 digits of a natural number,
most significant first, with no leading zero digit (`0` encodes as the empty
list).  Structural recursion on a fuel argument so that the kernel can
evaluate it; `natToBEBytes` supplies sufficient fuel. -/
def natToBEBytesAux : Nat → Nat → List Nat
  | 0, _ => []
  | fuel + 1, n => if n = 0 then [] else natToBEBytesAux fuel (n / 256) ++ [n % 256]

/-- Modelled from the spec: minimal big-endian byte representation of a
natural number. -/
def natToBEBytes (n : Nat) : List Nat :=
  natToBEBytesAux n n

/-- Value of a big-endian byte string as an unsigned integer. -/
def beBytesToNat (l : List Nat) : Nat :=
  l.foldl (fun a b => 256 * a + b) 0

/-- Modelled from the spec: the payload (after the length prefix) of the SSH
`mpint` encoding of an integer: minimal two's complement, big endian; a
non-negative value whose top bit would be set gains one leading zero byte;
zero encodes as the empty payload. -/
def mpint_payload (i : Int) : List Nat :=
  if 0 ≤ i then
    let m := natToBEBytes i.toNat
    if 128 ≤ m.headD 0 then 0 :: m else m
  else
    let n := i.natAbs
    let k := (natToBEBytes (2 * n - 1)).length
    natToBEBytes (2 ^ (8 * k) - n)

/-- Modelled from the spec: the signed big-endian two's-complement value of an
`mpint` payload; the empty payload is zero, and a payload whose top bit is set
is negative.  Non-minimal encodings are accepted (spec section 4.1, edge
cases). -/
def decode_mpint (bs : List Nat) : Int :=
  if bs = [] then 0
  else if 128 ≤ bs.headD 0 then (beBytesToNat bs : Int) - 2 ^ (8 * bs.length)
  else (beBytesToNat bs : Int)

/-- Modelled from the spec: the four big-endian octets of a `uint32`. -/
def u32_bytes (n : Nat) : List Nat :=
  [n / 16777216 % 256, n / 65536 % 256, n / 256 % 256, n % 256]

/-- Modelled from the spec: read a big-endian `uint32` from the head of the
stream; `none` is a `ShortRead`. -/
def read_u32 : List Nat → Option (Nat × List Nat)
  | a :: b :: c :: d :: rest => some (((a * 256 + b) * 256 + c) * 256 + d, rest)
  | _ => none

/-- Modelled from the spec: consume exactly `n` bytes; `none` is a
`ShortRead`. -/
def read_exact (n : Nat) (bs : List Nat) : Option (List Nat × List Nat) :=
  if n ≤ bs.length then some (bs.take n, bs.drop n) else none

/-- Modelled from the spec: a length-prefixed field (`uint32` length followed
by that many bytes). -/
def read_length_prefixed (bs : List Nat) : Option (List Nat × List Nat) :=
  match read_u32 bs with
  | none => none
  | some (n, rest) => read_exact n rest

/-- Modelled from the spec: write a length-prefixed field; the length prefix
is a `uint32`, so a payload of `2 ^ 32` bytes or more cannot be written. -/
def write_length_prefixed (s : List Nat) : Option (List Nat) :=
  if s.length < 4294967296 then some (u32_bytes s.length ++ s) else none

/-- Modelled from the spec: read one wire value per the format instruction. -/
def read_value (fi : PascalStyleFormatInstruction) (bs : List Nat) :
    Option (Value × List Nat) :=
  match fi with
  | .string => (read_length_prefixed bs).map fun p => (.str p.1, p.2)
  | .bytes => (read_length_prefixed bs).map fun p => (.bytes p.1, p.2)
  | .mpint => (read_length_prefixed bs).map fun p => (.int (decode_mpint p.1), p.2)

/-- Modelled from the spec: write one wire value per the format instruction;
`none` when the runtime type of the value does not fit the tag. -/
def write_value (fi : PascalStyleFormatInstruction) (v : Value) :
    Option (List Nat) :=
  match fi, v with
  | .string, .str s => write_length_prefixed s
  | .bytes, .bytes b => write_length_prefixed b
  | .mpint, .int i => write_length_prefixed (mpint_payload i)
  | _, _ => none

/-- Modelled from the spec: `read_from_format_instructions_dict` reads each
declared field in declaration order and produces the name-to-value
dictionary. -/
def read_from_format_instructions_dict :
    FormatInstructionsDict → List Nat → Option (Dict × List Nat)
  | [], bs => some ([], bs)
  | (name, fi) :: rest, bs =>
    match read_value fi bs with
    | none => none
    | some (v, bs₁) =>
      match read_from_format_instructions_dict rest bs₁ with
      | none => none
      | some (d, bs₂) => some ((name, v) :: d, bs₂)

/-- Modelled from the spec: `write_from_format_instructions_dict` writes each
declared field in declaration order, looking its value up in the given
dictionary; fields of the dictionary not named by the schema are not
written. -/
def write_from_format_instructions_dict :
    FormatInstructionsDict → Dict → Option (List Nat)
  | [], _ => some []
  | (name, fi) :: rest, d =>
    match d.lookup name with
    | none => none
    | some v =>
      match write_value fi v with
      | none => none
      | some w =>
        match write_from_format_instructions_dict rest d with
        | none => none
        | some ws => some (w ++ ws)

/-- Does the runtime type of the value match the format instruction tag? -/
def type_matches : PascalStyleFormatInstruction → Value → Bool
  | .mpint, .int _ => true
  | .bytes, .bytes _ => true
  | .string, .str _ => true
  | _, _ => false

/-- The non-fatal diagnostics the library can emit (`warnings.warn` calls and
the structural-validation warnings of the codec). -/
inductive Warning
  | missing_field (name : String)
  | wrong_type (name : String)
  | public_key_not_of_length (n : Nat)
  | public_key_mismatch
  | private_key_not_of_length (n : Nat)
  | excess_bytes
deriving DecidableEq

/-- Modelled from the spec: `check_dict_matches_format_instructions_dict`
checks, for each schema field, presence and a matching runtime type, emitting
a non-fatal warning per violation and never an error (spec sections 4.1 and
7). -/
def check_dict_matches_format_instructions_dict
    (d : Dict) (fid : FormatInstructionsDict) : List Warning :=
  fid.filterMap fun nf =>
    match d.lookup nf.1 with
    | none => some (.missing_field nf.1)
    | some v => if type_matches nf.2 v then none else some (.wrong_type nf.1)

/-! ## Key-parameter classes (`src/openssh_key/key_params.py` and
`src/openssh_key/key_params/dss.py`) -/

/-- The concrete key-parameter classes of the source snapshot: the RSA and
Ed25519 classes of `key_params.py` and the DSS classes of
`key_params/dss.py`. -/
inductive KPClass
  | rsaPublic
  | rsaPrivate
  | ed25519Public
  | ed25519Private
  | dssPublic
  | dssPrivate
deriving DecidableEq

/-- The errors the library can raise: codec short reads, registry lookup
failures (Python `KeyError` on the type-mapping dictionary), dictionary
lookup failures (`KeyError`), runtime type errors (`TypeError`), and
unsupported conversions (`NotImplementedError`). -/
inductive PyErr
  | short_read
  | unknown_key_type (key_type : Value)
  | no_private_for_key_type
  | key_error (name : String)
  | type_error
  | unsupported_conversion
deriving DecidableEq

/-- `RSAPublicKeyParams.public_format_instructions_dict`. -/
def rsa_public_fid : FormatInstructionsDict :=
  [("e", .mpint), ("n", .mpint)]

/-- `RSAPrivateKeyParams.private_format_instructions_dict`. -/
def rsa_private_fid : FormatInstructionsDict :=
  [("n", .mpint), ("e", .mpint), ("d", .mpint), ("iqmp", .mpint),
   ("p", .mpint), ("q", .mpint)]

/-- `Ed25519PublicKeyParams.public_format_instructions_dict`. -/
def ed25519_public_fid : FormatInstructionsDict :=
  [("public", .bytes)]

/-- `Ed25519PrivateKeyParams.private_format_instructions_dict`. -/
def ed25519_private_fid : FormatInstructionsDict :=
  [("public", .bytes), ("private_public", .bytes)]

/-- `DSSPublicKeyParams.FORMAT_INSTRUCTIONS_DICT` (`key_params/dss.py`). -/
def dss_public_fid : FormatInstructionsDict :=
  [("p", .mpint), ("q", .mpint), ("g", .mpint), ("y", .mpint)]

/-- `DSSPrivateKeyParams.FORMAT_INSTRUCTIONS_DICT` (`key_params/dss.py`). -/
def dss_private_fid : FormatInstructionsDict :=
  [("p", .mpint), ("q", .mpint), ("g", .mpint), ("y", .mpint), ("x", .mpint)]

/-- `public_format_instructions_dict` of each class (a private class inherits
its public schema from its public superclass). -/
def public_format_instructions_dict : KPClass → FormatInstructionsDict
  | .rsaPublic => rsa_public_fid
  | .rsaPrivate => rsa_public_fid
  | .ed25519Public => ed25519_public_fid
  | .ed25519Private => ed25519_public_fid
  | .dssPublic => dss_public_fid
  | .dssPrivate => dss_public_fid

/-- `private_format_instructions_dict` of each private class.  On the public
classes the method is abstract in the source and never called; those cases
return the empty schema and are unreachable in this development (the private
registry only produces private classes). -/
def private_format_instructions_dict : KPClass → FormatInstructionsDict
  | .rsaPrivate => rsa_private_fid
  | .ed25519Private => ed25519_private_fid
  | .dssPrivate => dss_private_fid
  | _ => []

/-- Python `len` on a stored value: defined on `bytes` and `str`, a
`TypeError` on `int`. -/
def py_len : Value → Except PyErr Nat
  | .bytes b => .ok b.length
  | .str s => .ok s.length
  | .int _ => .error .type_error

/-- Python slicing `v[k:]` on a stored value: defined on `bytes` and `str`, a
`TypeError` on `int`. -/
def py_slice_from (v : Value) (k : Nat) : Except PyErr Value :=
  match v with
  | .bytes b => .ok (.bytes (b.drop k))
  | .str s => .ok (.str (s.drop k))
  | .int _ => .error .type_error

/-- `Ed25519PublicKeyParams.check_params_are_valid`: the structural check
against the public schema followed by the soft key-length check
(`key_params.py`, lines 275 to 279); `len` on a non-sequence raises
`TypeError`. -/
def ed25519_public_check (d : Dict) : Except PyErr (List Warning) :=
  let w := check_dict_matches_format_instructions_dict d ed25519_public_fid
  match d.lookup "public" with
  | none => .ok w
  | some v =>
    match py_len v with
    | .error e => .error e
    | .ok n => .ok (w ++ if n ≠ 32 then [.public_key_not_of_length 32] else [])

/-- `Ed25519PrivateKeyParams.check_params_are_valid` (`key_params.py`, lines
367 to 378): the public-class check, the private-schema structural check,
then, when `private_public` is present, the comparison of its trailing bytes
with `data['public']` — an access that raises `KeyError` when `public` is
absent — and the trailing-length check. -/
def ed25519_private_check (d : Dict) : Except PyErr (List Warning) :=
  match ed25519_public_check d with
  | .error e => .error e
  | .ok w₁ =>
    let w₂ := check_dict_matches_format_instructions_dict d ed25519_private_fid
    match d.lookup "private_public" with
    | none => .ok (w₁ ++ w₂)
    | some pp =>
      match py_slice_from pp 32 with
      | .error e => .error e
      | .ok tail =>
        match d.lookup "public" with
        | none => .error (.key_error "public")
        | some pub =>
          let w₃ := if tail ≠ pub then [.public_key_mismatch] else []
          match py_len tail with
          | .error e => .error e
          | .ok tlen =>
            .ok (w₁ ++ w₂ ++ w₃ ++
              if tlen ≠ 32 then [.private_key_not_of_length 32] else [])

/-- `check_params_are_valid` of each class: RSA and DSS classes run only the
structural check against their schema (warnings, no errors); the Ed25519
classes add their soft checks. -/
def check_params_are_valid (cls : KPClass) (d : Dict) :
    Except PyErr (List Warning) :=
  match cls with
  | .rsaPublic => .ok (check_dict_matches_format_instructions_dict d rsa_public_fid)
  | .rsaPrivate => .ok (check_dict_matches_format_instructions_dict d rsa_private_fid)
  | .ed25519Public => ed25519_public_check d
  | .ed25519Private => ed25519_private_check d
  | .dssPublic => .ok (check_dict_matches_format_instructions_dict d dss_public_fid)
  | .dssPrivate => .ok (check_dict_matches_format_instructions_dict d dss_private_fid)

/-- A constructed parameters object: its class and its stored dictionary
(`collections.UserDict` keeps the given mapping as-is). -/
structure ParamsObj where
  cls : KPClass
  data : Dict
deriving DecidableEq

/-- `PublicKeyParams.__init__`: store the mapping as-is, then run
`check_params_are_valid`; validation warnings are collected, validation
errors abort construction. -/
def create_params (cls : KPClass) (d : Dict) :
    Except PyErr (ParamsObj × List Warning) :=
  match check_params_are_valid cls d with
  | .error e => .error e
  | .ok ws => .ok (⟨cls, d⟩, ws)

/-- Python `Mapping.__eq__`, inherited by every parameters class (none of
them defines `__eq__`): equality of the underlying dictionaries; the class
of the operands does not participate. -/
def params_beq (a b : ParamsObj) : Bool :=
  dict_beq a.data b.data

/-- `_KEY_TYPE_MAPPING` public lookup (`key_params.py`, lines 503 to 514):
the snapshot registers exactly `ssh-rsa` and `ssh-ed25519`. -/
def create_public_key_params (key_type : List Nat) : Option KPClass :=
  if key_type = ascii "ssh-rsa" then some .rsaPublic
  else if key_type = ascii "ssh-ed25519" then some .ed25519Public
  else none

/-- `_KEY_TYPE_MAPPING` private lookup (`key_params.py`, lines 503 to 518). -/
def create_private_key_params (key_type : List Nat) : Option KPClass :=
  if key_type = ascii "ssh-rsa" then some .rsaPrivate
  else if key_type = ascii "ssh-ed25519" then some .ed25519Private
  else none

/-! ## Key envelope (`src/openssh_key/key.py`) -/

/-- The concrete envelope class: `PublicKey` or its subclass `PrivateKey`. -/
inductive KeyKind
  | pub
  | priv
deriving DecidableEq

/-- `PublicKey.header_format_instructions_dict` (identical on both
classes). -/
def header_fid : FormatInstructionsDict :=
  [("key_type", .string)]

/-- `footer_format_instructions_dict`: empty for `PublicKey`, a `comment`
string for `PrivateKey`. -/
def footer_fid : KeyKind → FormatInstructionsDict
  | .pub => []
  | .priv => [("comment", .string)]

/-- The registry lookup performed by `create_key_params` and
`create_key_params_dict`: `create_public_key_params(header['key_type'])` for
`PublicKey`, `create_private_key_params` for `PrivateKey`; a key type without
a registry entry (or of non-string runtime type) raises `KeyError` on the
mapping — the `UnknownKeyType` failure kind. -/
def key_params_class (kind : KeyKind) (v : Value) : Except PyErr KPClass :=
  match v with
  | .str s =>
    match (match kind with
           | .pub => create_public_key_params s
           | .priv => create_private_key_params s) with
    | some c => .ok c
    | none => .error (.unknown_key_type v)
  | _ => .error (.unknown_key_type v)

/-- The schema used to read or write the parameter body: the public schema
for `PublicKey`, the private schema for `PrivateKey`. -/
def body_fid (kind : KeyKind) (cls : KPClass) : FormatInstructionsDict :=
  match kind with
  | .pub => public_format_instructions_dict cls
  | .priv => private_format_instructions_dict cls

/-- A constructed key envelope.  `remainder` is the attribute set by
`from_bytes` when trailing bytes were left over; `__eq__` ignores it. -/
structure Key where
  kind : KeyKind
  header : Dict
  params : ParamsObj
  footer : Dict
  remainder : Option (List Nat)
deriving DecidableEq

/-- `PublicKey.__init__` (also `PrivateKey.__init__` through the overridden
static methods): check the header, build the parameters object through the
registry, store the footer and check it.  Non-fatal diagnostics are
collected in order. -/
def key_init (kind : KeyKind) (header params footer : Dict) :
    Except PyErr (Key × List Warning) :=
  let w₁ := check_dict_matches_format_instructions_dict header header_fid
  match header.lookup "key_type" with
  | none => .error (.key_error "key_type")
  | some ktv =>
    match key_params_class kind ktv with
    | .error e => .error e
    | .ok cls =>
      match check_params_are_valid cls params with
      | .error e => .error e
      | .ok w₂ =>
        let w₃ := check_dict_matches_format_instructions_dict footer (footer_fid kind)
        .ok (⟨kind, header, ⟨cls, params⟩, footer, none⟩, w₁ ++ w₂ ++ w₃)

/-- `PublicKey.from_bytes` / `PrivateKey.from_bytes` (`key.py`, lines 51 to
81): read header, select the schema through the registry, read the body and
the footer, construct the envelope, then attach any remaining bytes as
`remainder` with an `ExcessBytes` warning. -/
def from_bytes (kind : KeyKind) (byte_string : List Nat) :
    Except PyErr (Key × List Warning) :=
  match read_from_format_instructions_dict header_fid byte_string with
  | none => .error .short_read
  | some (header, r₁) =>
    match header.lookup "key_type" with
    | none => .error (.key_error "key_type")
    | some ktv =>
      match key_params_class kind ktv with
      | .error e => .error e
      | .ok cls =>
        match read_from_format_instructions_dict (body_fid kind cls) r₁ with
        | none => .error .short_read
        | some (pd, r₂) =>
          match read_from_format_instructions_dict (footer_fid kind) r₂ with
          | none => .error .short_read
          | some (fd, r₃) =>
            match key_init kind header pd fd with
            | .error e => .error e
            | .ok (k, ws) =>
              if r₃ = [] then .ok (k, ws)
              else .ok ({ k with remainder := some r₃ }, ws ++ [.excess_bytes])

/-- `PublicKey.pack_public` (`key.py`, lines 83 to 101): write the header,
the body per the parameter object's public schema, and the (empty) footer
schema. -/
def pack_public (k : Key) : Option (List Nat) :=
  match write_from_format_instructions_dict header_fid k.header with
  | none => none
  | some h =>
    match write_from_format_instructions_dict
        (public_format_instructions_dict k.params.cls) k.params.data with
    | none => none
    | some p =>
      match write_from_format_instructions_dict [] k.footer with
      | none => none
      | some f => some (h ++ p ++ f)

/-- `PrivateKey.pack_private` (`key.py`, lines 136 to 154): write the header,
the body per the private schema, and the `comment` footer. -/
def pack_private (k : Key) : Option (List Nat) :=
  match write_from_format_instructions_dict header_fid k.header with
  | none => none
  | some h =>
    match write_from_format_instructions_dict
        (private_format_instructions_dict k.params.cls) k.params.data with
    | none => none
    | some p =>
      match write_from_format_instructions_dict (footer_fid .priv) k.footer with
      | none => none
      | some f => some (h ++ p ++ f)

/-- `PublicKey.__eq__` (`key.py`, lines 103 to 109): identical concrete
class (`type(self) is type(other)`) and equal header, params and footer;
`PrivateKey` inherits it. -/
def key_beq (a b : Key) : Bool :=
  a.kind == b.kind && dict_beq a.header b.header &&
    params_beq a.params b.params && dict_beq a.footer b.footer

/-! ## Validity of constructed envelopes

A validly constructed envelope, as used by the round-trip law: its header is
the header schema's single `key_type` field naming a registered algorithm,
its parameter dictionary carries exactly the schema's fields with values of
the schema's runtime types (and of writable size: length prefixes are
`uint32`), and its footer matches the footer schema. -/

/-- Is the value of the schema's runtime type and writable (every length
prefix fits a `uint32`)?  `MPINT` parameter values of the key schemas are
non-negative (spec, section 4.3). -/
def valid_value : PascalStyleFormatInstruction → Value → Bool
  | .mpint, .int i => 0 ≤ i && decide ((mpint_payload i).length < 4294967296)
  | .bytes, .bytes b => decide (b.length < 4294967296)
  | .string, .str s => decide (s.length < 4294967296)
  | _, _ => false

/-- Every schema field is present in the dictionary with a valid value. -/
def fid_fields_ok (fid : FormatInstructionsDict) (d : Dict) : Bool :=
  fid.all fun nf =>
    match d.lookup nf.1 with
    | some v => valid_value nf.2 v
    | none => false

/-- The dictionary a decode of `fid`-conforming bytes produces: the schema's
fields, in schema order, with the values the source dictionary holds. -/
def dict_project (fid : FormatInstructionsDict) (d : Dict) : Dict :=
  fid.filterMap fun nf => (d.lookup nf.1).map fun v => (nf.1, v)

/-- The dictionary carries every schema field with a valid value, and no
field beyond the schema. -/
def valid_params_for (fid : FormatInstructionsDict) (d : Dict) : Bool :=
  fid_fields_ok fid d &&
  (d.map Prod.fst).all fun s => s ∈ fid.map Prod.fst

/-- A validly constructed `PublicKey` envelope. -/
def valid_public_key (k : Key) : Bool :=
  k.kind == .pub &&
  (match k.header.lookup "key_type" with
   | some (.str kt) => create_public_key_params kt == some k.params.cls
   | _ => false) &&
  (k.header.map Prod.fst).all (· == "key_type") &&
  valid_params_for (public_format_instructions_dict k.params.cls) k.params.data &&
  k.footer.isEmpty

/-- A validly constructed `PrivateKey` envelope. -/
def valid_private_key (k : Key) : Bool :=
  k.kind == .priv &&
  (match k.header.lookup "key_type" with
   | some (.str kt) => create_private_key_params kt == some k.params.cls
   | _ => false) &&
  (k.header.map Prod.fst).all (· == "key_type") &&
  valid_params_for (private_format_instructions_dict k.params.cls) k.params.data &&
  (match k.footer.lookup "comment" with
   | some (.str c) => decide (c.length < 4294967296)
   | _ => false) &&
  (k.footer.map Prod.fst).all (· == "comment")

/-! ## The full algorithm factory

Modelled from the spec: the package layout's registry and factory cover all
supported algorithms (spec, sections 4.3 and 4.4); the module defining them
is absent from the source snapshot — only its test file
(`src/tests/key_params/test_factory.py`) is present.  Certificate variants
expose only a public form. -/

/-- The parameter-class names of the full package layout (the classes the
factory test imports). -/
inductive FullClass
  | rsaPublic
  | rsaPrivate
  | ed25519Public
  | ed25519Private
  | dssPublic
  | dssPrivate
  | ecdsaNistp256Public
  | ecdsaNistp256Private
  | ecdsaNistp384Public
  | ecdsaNistp384Private
  | ecdsaNistp521Public
  | ecdsaNistp521Private
  | skEd25519Public
  | skEd25519Private
  | skEcdsaNistp256Public
  | skEcdsaNistp256Private
  | certRsaPublic
  | certEd25519Public
  | certDssPublic
  | certEcdsaNistp256Public
  | certEcdsaNistp384Public
  | certEcdsaNistp521Public
  | certSkEd25519Public
  | certSkEcdsaNistp256Public
deriving DecidableEq

/-- Modelled from the spec: the process-wide registry, algorithm identifier
to public variant and optional private variant (certificate variants have
none). -/
def key_type_mapping (key_type : List Nat) :
    Option (FullClass × Option FullClass) :=
  if key_type = ascii "ssh-rsa" then
    some (.rsaPublic, some .rsaPrivate)
  else if key_type = ascii "ssh-ed25519" then
    some (.ed25519Public, some .ed25519Private)
  else if key_type = ascii "ssh-dss" then
    some (.dssPublic, some .dssPrivate)
  else if key_type = ascii "ecdsa-sha2-nistp256" then
    some (.ecdsaNistp256Public, some .ecdsaNistp256Private)
  else if key_type = ascii "ecdsa-sha2-nistp384" then
    some (.ecdsaNistp384Public, some .ecdsaNistp384Private)
  else if key_type = ascii "ecdsa-sha2-nistp521" then
    some (.ecdsaNistp521Public, some .ecdsaNistp521Private)
  else if key_type = ascii "sk-ssh-ed25519@openssh.com" then
    some (.skEd25519Public, some .skEd25519Private)
  else if key_type = ascii "sk-ecdsa-sha2-nistp256@openssh.com" then
    some (.skEcdsaNistp256Public, some .skEcdsaNistp256Private)
  else if key_type = ascii "ssh-rsa-cert-v01@openssh.com" then
    some (.certRsaPublic, none)
  else if key_type = ascii "ssh-ed25519-cert-v01@openssh.com" then
    some (.certEd25519Public, none)
  else if key_type = ascii "ssh-dss-cert-v01@openssh.com" then
    some (.certDssPublic, none)
  else if key_type = ascii "ecdsa-sha2-nistp256-cert-v01@openssh.com" then
    some (.certEcdsaNistp256Public, none)
  else if key_type = ascii "ecdsa-sha2-nistp384-cert-v01@openssh.com" then
    some (.certEcdsaNistp384Public, none)
  else if key_type = ascii "ecdsa-sha2-nistp521-cert-v01@openssh.com" then
    some (.certEcdsaNistp521Public, none)
  else if key_type = ascii "sk-ssh-ed25519-cert-v01@openssh.com" then
    some (.certSkEd25519Public, none)
  else if key_type = ascii "sk-ecdsa-sha2-nistp256-cert-v01@openssh.com" then
    some (.certSkEcdsaNistp256Public, none)
  else none

/-- Modelled from the spec: `public_variant_for` returns the registered
public variant or fails with `UnknownKeyType` (spec, section 4.4). -/
def public_variant_for (key_type : List Nat) : Except PyErr FullClass :=
  match key_type_mapping key_type with
  | none => .error (.unknown_key_type (.str key_type))
  | some (p, _) => .ok p

/-- Modelled from the spec: `private_variant_for` returns the registered
private variant, fails with `NoPrivateForKeyType` when the entry has no
private variant (certificate types), and with `UnknownKeyType` when there is
no entry at all (spec, sections 4.4 and 7). -/
def private_variant_for (key_type : List Nat) : Except PyErr FullClass :=
  match key_type_mapping key_type with
  | none => .error (.unknown_key_type (.str key_type))
  | some (_, none) => .error .no_private_for_key_type
  | some (_, some p) => .ok p

/-! ## Conversion resolution (`src/openssh_key/key_params/common.py`,
`convert_to`, lines 164 to 199)

The walk is over the method resolution order of the parameter class, and at
each level over that level's own `conversion_functions` table.  The concrete
hierarchy present in the source snapshot is the DSS one
(`key_params/dss.py`) over the abstract bases of `key_params/common.py`. -/

/-- The external type tokens involved in the DSS adapters, plus the Python
root class `object`. -/
inductive CTypeTok
  | dsaPublicKey
  | dsaPrivateKey
  | pyObject
deriving DecidableEq

/-- Python `issubclass` on the token universe: reflexive, and every class is
a subclass of `object`; the `cryptography` classes `DSAPublicKey` and
`DSAPrivateKey` are unrelated abstract bases. -/
def is_subclass (a b : CTypeTok) : Bool :=
  a == b || b == .pyObject

/-- The classes traversed by `convert_to` in the snapshot's hierarchy: the
DSS classes and the abstract bases. -/
inductive ConvCls
  | dssPublicC
  | dssPrivateC
  | publicBaseC
  | privateBaseC
deriving DecidableEq

/-- The registered external types of each class's `conversion_functions`
table, in iteration order: `DSSPublicKeyParams` registers `DSAPublicKey`,
`DSSPrivateKeyParams` registers `DSAPrivateKey`, and the abstract bases
register nothing. -/
def conversion_functions : ConvCls → List CTypeTok
  | .dssPublicC => [.dsaPublicKey]
  | .dssPrivateC => [.dsaPrivateKey]
  | .publicBaseC => []
  | .privateBaseC => []

/-- The method resolution order of each class, truncated where the walk of
`convert_to` breaks (at the first class that is not a subclass of
`PublicKeyParams`):
`DSSPrivateKeyParams(PrivateKeyParams, DSSPublicKeyParams)` linearizes to
itself, `PrivateKeyParams`, `DSSPublicKeyParams`, `PublicKeyParams`. -/
def mro : ConvCls → List ConvCls
  | .dssPublicC => [.dssPublicC, .publicBaseC]
  | .dssPrivateC => [.dssPrivateC, .privateBaseC, .dssPublicC, .publicBaseC]
  | .publicBaseC => [.publicBaseC]
  | .privateBaseC => [.privateBaseC, .publicBaseC]

/-- The nested loop of `convert_to`: for each class of the resolution order,
the first adapter whose registered type is a subclass of the destination
class; the result identifies the invoked adapter by its level and registered
type. -/
def convert_to_walk : List ConvCls → CTypeTok → Option (ConvCls × CTypeTok)
  | [], _ => none
  | sc :: rest, t =>
    match (conversion_functions sc).find? (fun c => is_subclass c t) with
    | some c => some (sc, c)
    | none => convert_to_walk rest t

/-- `PublicKeyParams.convert_to`: the walk over the resolution order;
exhaustion raises `NotImplementedError` — the `UnsupportedConversion`
failure kind. -/
def convert_to (cls : ConvCls) (t : CTypeTok) :
    Except PyErr (ConvCls × CTypeTok) :=
  match convert_to_walk (mro cls) t with
  | some a => .ok a
  | none => .error .unsupported_conversion

/-- The spec's description of the resolution (spec, section 4.3): flatten
the inheritance chain from most-specific to base into the candidate list of
type-correct adapters, level by level, and take the first. -/
def convert_to_spec (cls : ConvCls) (t : CTypeTok) :
    Option (ConvCls × CTypeTok) :=
  ((mro cls).flatMap fun sc =>
    ((conversion_functions sc).filter fun c => is_subclass c t).map
      fun c => (sc, c)).head?

/-! ## Concrete sample envelopes (used by witnesses) -/

/-- A concrete RSA public-key envelope (the spec's end-to-end scenario (a)
uses the same shape). -/
def sample_rsa_public_key : Key :=
  ⟨.pub, [("key_type", .str (ascii "ssh-rsa"))],
   ⟨.rsaPublic, [("e", .int 65537), ("n", .int 65537)]⟩, [], none⟩

/-- A concrete Ed25519 private-key envelope with a comment (the spec's
end-to-end scenario (e)). -/
def sample_ed25519_private_key : Key :=
  ⟨.priv, [("key_type", .str (ascii "ssh-ed25519"))],
   ⟨.ed25519Private,
    [("public", .bytes (List.replicate 32 170)),
     ("private_public", .bytes (List.replicate 32 5 ++ List.replicate 32 170))]⟩,
   [("comment", .str (ascii "test@host"))], none⟩

/-- A `PublicKey` envelope and a `PrivateKey` envelope agreeing on header,
params and footer. -/
def sample_pub_envelope : Key :=
  ⟨.pub, [("key_type", .str (ascii "ssh-rsa"))],
   ⟨.rsaPublic, [("e", .int 3), ("n", .int 5)]⟩, [], none⟩

/-- See `sample_pub_envelope`. -/
def sample_priv_envelope : Key :=
  ⟨.priv, [("key_type", .str (ascii "ssh-rsa"))],
   ⟨.rsaPublic, [("e", .int 3), ("n", .int 5)]⟩, [], none⟩

/-- An envelope whose parameter object carries only the schema fields. -/
def sample_plain_key : Key :=
  ⟨.pub, [("key_type", .str (ascii "ssh-rsa"))],
   ⟨.rsaPublic, [("e", .int 3), ("n", .int 5)]⟩, [], none⟩

/-- The same envelope with an extra field stored beyond the schema. -/
def sample_extra_key : Key :=
  ⟨.pub, [("key_type", .str (ascii "ssh-rsa"))],
   ⟨.rsaPublic, [("e", .int 3), ("n", .int 5), ("extra", .bytes [1])]⟩, [], none⟩

/-! ## Lemmas: big-endian numerals and the `mpint` codec -/

theorem beBytesToNat_nil : beBytesToNat [] = 0 := rfl

theorem foldl_be_init (l : List Nat) (a : Nat) :
    l.foldl (fun x b => 256 * x + b) a =
      a * 256 ^ l.length + l.foldl (fun x b => 256 * x + b) 0 := by
  induction l generalizing a with
  | nil => simp
  | cons b l ih =>
    simp only [List.foldl_cons, List.length_cons]
    rw [ih (256 * a + b), ih (256 * 0 + b)]
    ring

theorem beBytesToNat_cons (b : Nat) (l : List Nat) :
    beBytesToNat (b :: l) = b * 256 ^ l.length + beBytesToNat l := by
  simp only [beBytesToNat, List.foldl_cons]
  rw [foldl_be_init l (256 * 0 + b)]
  ring

theorem beBytesToNat_append_singleton (l : List Nat) (b : Nat) :
    beBytesToNat (l ++ [b]) = 256 * beBytesToNat l + b := by
  simp only [beBytesToNat, List.foldl_append, List.foldl_cons, List.foldl_nil]

theorem natToBEBytesAux_sound (fuel : Nat) :
    ∀ n, n ≤ fuel → beBytesToNat (natToBEBytesAux fuel n) = n := by
  induction fuel with
  | zero =>
    intro n hn
    interval_cases n
    rfl
  | succ fuel ih =>
    intro n hn
    rw [natToBEBytesAux]
    by_cases h0 : n = 0
    · simp [h0, beBytesToNat]
    · simp only [h0, if_false]
      rw [beBytesToNat_append_singleton, ih (n / 256) (by omega)]
      omega

theorem beBytesToNat_natToBEBytes (n : Nat) :
    beBytesToNat (natToBEBytes n) = n :=
  natToBEBytesAux_sound n n le_rfl

theorem natToBEBytesAux_eq_nil (fuel n : Nat) (hn : n ≤ fuel) :
    natToBEBytesAux fuel n = [] ↔ n = 0 := by
  cases fuel with
  | zero =>
    interval_cases n
    simp [natToBEBytesAux]
  | succ fuel =>
    rw [natToBEBytesAux]
    by_cases h0 : n = 0 <;> simp [h0]

theorem natToBEBytes_eq_nil (n : Nat) : natToBEBytes n = [] ↔ n = 0 :=
  natToBEBytesAux_eq_nil n n le_rfl

theorem decode_mpint_mpint_payload (i : Int) (hi : 0 ≤ i) :
    decode_mpint (mpint_payload i) = i := by
  rw [mpint_payload, if_pos hi]
  by_cases hhead : 128 ≤ (natToBEBytes i.toNat).headD 0
  · simp only [hhead, if_true]
    rw [decode_mpint, if_neg (by simp)]
    have hh : ((0 : Nat) :: natToBEBytes i.toNat).headD 0 = 0 := rfl
    rw [hh, if_neg (by omega), beBytesToNat_cons, beBytesToNat_natToBEBytes]
    push_cast
    omega
  · simp only [hhead, if_false]
    by_cases hnil : natToBEBytes i.toNat = []
    · have h0 : i.toNat = 0 := (natToBEBytes_eq_nil _).1 hnil
      rw [hnil, decode_mpint, if_pos rfl]
      omega
    · rw [decode_mpint, if_neg hnil, if_neg hhead, beBytesToNat_natToBEBytes]
      omega

/-! ## Lemmas: length-prefixed fields -/

theorem read_u32_u32_bytes (n : Nat) (hn : n < 4294967296) (r : List Nat) :
    read_u32 (u32_bytes n ++ r) = some (n, r) := by
  simp only [u32_bytes, List.cons_append, List.nil_append, read_u32,
    Option.some.injEq, Prod.mk.injEq]
  refine ⟨?_, trivial⟩
  omega

theorem read_exact_append (s r : List Nat) :
    read_exact s.length (s ++ r) = some (s, r) := by
  rw [read_exact, if_pos (by simp)]
  simp

theorem read_length_prefixed_write (s w : List Nat)
    (hw : write_length_prefixed s = some w) (r : List Nat) :
    read_length_prefixed (w ++ r) = some (s, r) := by
  rw [write_length_prefixed] at hw
  by_cases hlen : s.length < 4294967296
  · rw [if_pos hlen] at hw
    cases hw
    rw [read_length_prefixed, List.append_assoc, read_u32_u32_bytes _ hlen]
    exact read_exact_append s r
  · rw [if_neg hlen] at hw
    exact absurd hw (by simp)

theorem read_value_write_value (fi : PascalStyleFormatInstruction) (v : Value)
    (hv : valid_value fi v = true) :
    ∃ w, write_value fi v = some w ∧
      ∀ r, read_value fi (w ++ r) = some (v, r) := by
  cases fi <;> cases v <;>
    simp only [valid_value, decide_eq_true_eq, Bool.and_eq_true,
      Bool.false_eq_true] at hv
  case string.str s =>
    refine ⟨u32_bytes s.length ++ s, ?_, ?_⟩
    · rw [write_value, write_length_prefixed, if_pos hv]
    · intro r
      rw [read_value, read_length_prefixed_write s _ (by rw [write_length_prefixed, if_pos hv]) r]
      rfl
  case bytes.bytes b =>
    refine ⟨u32_bytes b.length ++ b, ?_, ?_⟩
    · rw [write_value, write_length_prefixed, if_pos hv]
    · intro r
      rw [read_value, read_length_prefixed_write b _ (by rw [write_length_prefixed, if_pos hv]) r]
      rfl
  case mpint.int i =>
    obtain ⟨hi, hlen⟩ := hv
    refine ⟨u32_bytes (mpint_payload i).length ++ mpint_payload i, ?_, ?_⟩
    · rw [write_value, write_length_prefixed, if_pos hlen]
    · intro r
      rw [read_value, read_length_prefixed_write (mpint_payload i) _
        (by rw [write_length_prefixed, if_pos hlen]) r]
      show some (Value.int (decode_mpint (mpint_payload i)), r) = some (Value.int i, r)
      rw [decode_mpint_mpint_payload i hi]

/-! ## Lemmas: dictionaries and format-instruction schemas -/

theorem lookup_eq_none_of_not_mem_keys (d : Dict) (s : String)
    (h : s ∉ d.map Prod.fst) : d.lookup s = none := by
  induction d with
  | nil => rfl
  | cons p d ih =>
    simp only [List.map_cons, List.mem_cons, not_or] at h
    have hne : (s == p.1) = false := by
      simp only [beq_eq_false_iff_ne, ne_eq]
      exact h.1
    simp only [List.lookup, hne]
    exact ih h.2

theorem dict_beq_iff (a b : Dict) :
    dict_beq a b = true ↔ ∀ s, a.lookup s = b.lookup s := by
  constructor
  · intro h s
    rw [dict_beq, List.all_eq_true] at h
    by_cases hs : s ∈ a.map Prod.fst ++ b.map Prod.fst
    · have := h s hs
      rwa [beq_iff_eq] at this
    · rw [List.mem_append, not_or] at hs
      rw [lookup_eq_none_of_not_mem_keys a s hs.1,
        lookup_eq_none_of_not_mem_keys b s hs.2]
  · intro h
    rw [dict_beq, List.all_eq_true]
    intro s _
    rw [beq_iff_eq]
    exact h s

theorem dict_project_lookup (fid : FormatInstructionsDict) (d : Dict)
    (s : String) :
    (dict_project fid d).lookup s =
      if s ∈ fid.map Prod.fst then d.lookup s else none := by
  induction fid with
  | nil => rfl
  | cons nf fid ih =>
    rw [dict_project, List.filterMap_cons]
    rcases hl : d.lookup nf.1 with _ | v
    · simp only [Option.map_none']
      rw [← dict_project, ih]
      by_cases hs : s = nf.1
      · subst hs
        simp [hl]
      · simp only [List.map_cons, List.mem_cons, hs, false_or]
    · simp only [Option.map_some']
      by_cases hs : s = nf.1
      · subst hs
        have hbeq : (nf.1 == nf.1) = true := by simp
        simp only [List.lookup, hbeq, hl]
        simp
      · have hbeq : (s == nf.1) = false := by
          simp only [beq_eq_false_iff_ne, ne_eq]
          exact hs
        simp only [List.lookup, hbeq]
        rw [← dict_project, ih]
        simp only [List.map_cons, List.mem_cons, hs, false_or]

theorem dict_beq_project (fid : FormatInstructionsDict) (d : Dict)
    (hcov : ∀ s ∈ d.map Prod.fst, s ∈ fid.map Prod.fst) :
    dict_beq (dict_project fid d) d = true := by
  rw [dict_beq_iff]
  intro s
  rw [dict_project_lookup]
  by_cases hs : s ∈ fid.map Prod.fst
  · rw [if_pos hs]
  · rw [if_neg hs, lookup_eq_none_of_not_mem_keys d s fun hm => hs (hcov s hm)]

theorem fid_fields_ok_project (fid : FormatInstructionsDict) (d : Dict)
    (h : fid_fields_ok fid d = true) :
    fid_fields_ok fid (dict_project fid d) = true := by
  rw [fid_fields_ok, List.all_eq_true] at h ⊢
  intro nf hnf
  rw [dict_project_lookup, if_pos (List.mem_map_of_mem Prod.fst hnf)]
  exact h nf hnf

theorem lookup_project_of_mem (fid : FormatInstructionsDict) (d : Dict)
    (s : String) (hs : s ∈ fid.map Prod.fst) :
    (dict_project fid d).lookup s = d.lookup s := by
  rw [dict_project_lookup, if_pos hs]

theorem write_read_fid (fid : FormatInstructionsDict) (d : Dict)
    (h : fid_fields_ok fid d = true) :
    ∃ w, write_from_format_instructions_dict fid d = some w ∧
      ∀ r, read_from_format_instructions_dict fid (w ++ r) =
        some (dict_project fid d, r) := by
  induction fid with
  | nil => exact ⟨[], rfl, fun r => rfl⟩
  | cons nf fid ih =>
    rw [fid_fields_ok, List.all_cons, Bool.and_eq_true] at h
    obtain ⟨h₁, h₂⟩ := h
    rcases hl : d.lookup nf.1 with _ | v
    · rw [hl] at h₁
      exact absurd h₁ (by simp)
    · rw [hl] at h₁
      have hv : valid_value nf.2 v = true := h₁
      obtain ⟨wv, hwv, hrv⟩ := read_value_write_value nf.2 v hv
      obtain ⟨wr, hwr, hrr⟩ := ih h₂
      refine ⟨wv ++ wr, ?_, ?_⟩
      · simp only [write_from_format_instructions_dict, hl, hwv, hwr]
      · intro r
        simp only [read_from_format_instructions_dict, List.append_assoc,
          hrv (wr ++ r), hrr r, dict_project, List.filterMap_cons, hl,
          Option.map_some']

theorem type_matches_of_valid (fi : PascalStyleFormatInstruction) (v : Value)
    (h : valid_value fi v = true) : type_matches fi v = true := by
  cases fi <;> cases v <;> simp_all [valid_value, type_matches]

theorem check_clean (fid : FormatInstructionsDict) (d : Dict)
    (h : fid_fields_ok fid d = true) :
    check_dict_matches_format_instructions_dict d fid = [] := by
  rw [fid_fields_ok, List.all_eq_true] at h
  rw [check_dict_matches_format_instructions_dict, List.filterMap_eq_nil_iff]
  intro nf hnf
  have hh := h nf hnf
  rcases hl : d.lookup nf.1 with _ | v
  · rw [hl] at hh
    exact absurd hh (by simp)
  · rw [hl] at hh
    have hv : valid_value nf.2 v = true := hh
    simp [type_matches_of_valid nf.2 v hv]

/-! ## Lemmas: the flat registry and parameter validation -/

theorem create_public_key_params_cases (kt : List Nat) (c : KPClass)
    (h : create_public_key_params kt = some c) :
    (kt = ascii "ssh-rsa" ∧ c = .rsaPublic) ∨
      (kt = ascii "ssh-ed25519" ∧ c = .ed25519Public) := by
  rw [create_public_key_params] at h
  split_ifs at h with h₁ h₂
  · exact Or.inl ⟨h₁, (Option.some.inj h).symm⟩
  · exact Or.inr ⟨h₂, (Option.some.inj h).symm⟩

theorem create_private_key_params_cases (kt : List Nat) (c : KPClass)
    (h : create_private_key_params kt = some c) :
    (kt = ascii "ssh-rsa" ∧ c = .rsaPrivate) ∨
      (kt = ascii "ssh-ed25519" ∧ c = .ed25519Private) := by
  rw [create_private_key_params] at h
  split_ifs at h with h₁ h₂
  · exact Or.inl ⟨h₁, (Option.some.inj h).symm⟩
  · exact Or.inr ⟨h₂, (Option.some.inj h).symm⟩

theorem valid_key_type_string (kt : List Nat)
    (h : kt = ascii "ssh-rsa" ∨ kt = ascii "ssh-ed25519") :
    valid_value .string (.str kt) = true := by
  rcases h with h | h <;> subst h <;> decide

/-- Extracts, from `fid_fields_ok`, the looked-up byte-string value of a
`BYTES` field of the schema. -/
theorem lookup_bytes_of_fields_ok (fid : FormatInstructionsDict) (d : Dict)
    (name : String) (hmem : (name, PascalStyleFormatInstruction.bytes) ∈ fid)
    (h : fid_fields_ok fid d = true) :
    ∃ b, d.lookup name = some (.bytes b) ∧ b.length < 4294967296 := by
  rw [fid_fields_ok, List.all_eq_true] at h
  have hh := h (name, .bytes) hmem
  rcases hl : d.lookup name with _ | v
  · rw [hl] at hh
    exact absurd hh (by simp)
  · rw [hl] at hh
    cases v with
    | int i => exact absurd hh (by simp [valid_value])
    | str s => exact absurd hh (by simp [valid_value])
    | bytes b =>
      refine ⟨b, rfl, ?_⟩
      simpa [valid_value] using hh

theorem check_params_ok_public (cls : KPClass) (d : Dict)
    (hcls : cls = KPClass.rsaPublic ∨ cls = KPClass.ed25519Public)
    (h : fid_fields_ok (public_format_instructions_dict cls) d = true) :
    ∃ ws, check_params_are_valid cls d = .ok ws ∧ Warning.excess_bytes ∉ ws := by
  rcases hcls with hcls | hcls <;> subst hcls
  · have h' : fid_fields_ok rsa_public_fid d = true := h
    refine ⟨[], ?_, by decide⟩
    rw [check_params_are_valid, check_clean _ _ h']
  · have h' : fid_fields_ok ed25519_public_fid d = true := h
    obtain ⟨b, hb, _⟩ := lookup_bytes_of_fields_ok _ d "public" (by decide) h'
    refine ⟨if b.length ≠ 32 then [.public_key_not_of_length 32] else [],
      ?_, by split <;> decide⟩
    rw [check_params_are_valid, ed25519_public_check, check_clean _ _ h', hb]
    simp [py_len]

theorem check_params_ok_private (cls : KPClass) (d : Dict)
    (hcls : cls = KPClass.rsaPrivate ∨ cls = KPClass.ed25519Private)
    (h : fid_fields_ok (private_format_instructions_dict cls) d = true) :
    ∃ ws, check_params_are_valid cls d = .ok ws ∧ Warning.excess_bytes ∉ ws := by
  rcases hcls with hcls | hcls <;> subst hcls
  · have h' : fid_fields_ok rsa_private_fid d = true := h
    refine ⟨[], ?_, by decide⟩
    rw [check_params_are_valid, check_clean _ _ h']
  · have h' : fid_fields_ok ed25519_private_fid d = true := h
    obtain ⟨pb, hpb, _⟩ := lookup_bytes_of_fields_ok _ d "public" (by decide) h'
    obtain ⟨pp, hpp, _⟩ := lookup_bytes_of_fields_ok _ d "private_public" (by decide) h'
    have hpubok : fid_fields_ok ed25519_public_fid d = true := by
      rw [fid_fields_ok, List.all_eq_true]
      intro nf hnf
      have h'' := h'
      rw [fid_fields_ok, List.all_eq_true] at h''
      apply h''
      rw [ed25519_public_fid] at hnf
      rw [ed25519_private_fid]
      simp only [List.mem_singleton] at hnf
      subst hnf
      simp
    refine ⟨(if pb.length ≠ 32 then [.public_key_not_of_length 32] else []) ++ [] ++
        (if Value.bytes (pp.drop 32) ≠ Value.bytes pb then [.public_key_mismatch] else []) ++
          (if (pp.drop 32).length ≠ 32 then [.private_key_not_of_length 32] else []),
      ?_, ?_⟩
    · rw [check_params_are_valid, ed25519_private_check, ed25519_public_check,
        check_clean _ _ hpubok, hpb]
      have hclean : check_dict_matches_format_instructions_dict d
          ed25519_private_fid = [] := check_clean _ _ h'
      simp only [py_len, hclean, hpp, hpb, py_slice_from, List.nil_append,
        List.append_nil]
    · simp only [List.mem_append, not_or]
      refine ⟨⟨⟨?_, ?_⟩, ?_⟩, ?_⟩
      · split <;> decide
      · decide
      · split <;> decide
      · split <;> decide

/-! ## Master decode lemmas -/

theorem pack_public_decodes (k : Key) (t : List Nat)
    (hk : valid_public_key k = true) :
    ∃ w k' ws, pack_public k = some w ∧
      from_bytes .pub (w ++ t) = .ok (k', ws) ∧
      key_beq k' k = true ∧
      k'.remainder = (if t = [] then none else some t) ∧
      (Warning.excess_bytes ∈ ws ↔ t ≠ []) := by
  rw [valid_public_key] at hk
  simp only [Bool.and_eq_true, beq_iff_eq, List.all_eq_true] at hk
  obtain ⟨⟨⟨⟨hkind, hhead⟩, hkeys⟩, hparams⟩, hfoot⟩ := hk
  have hfoot' : k.footer = [] := by
    cases hfl : k.footer with
    | nil => rfl
    | cons p l =>
      rw [hfl] at hfoot
      exact absurd hfoot (by simp)
  rcases hlk : k.header.lookup "key_type" with _ | v
  · rw [hlk] at hhead
    exact absurd hhead (by simp)
  rw [hlk] at hhead
  cases v with
  | int i => exact absurd hhead (by simp)
  | bytes b => exact absurd hhead (by simp)
  | str kt =>
  have hreg : create_public_key_params kt = some k.params.cls := by
    simpa using hhead
  have hcases := create_public_key_params_cases kt _ hreg
  have hktvalid : valid_value .string (.str kt) = true := by
    refine valid_key_type_string kt ?_
    rcases hcases with ⟨h, _⟩ | ⟨h, _⟩
    · exact Or.inl h
    · exact Or.inr h
  have hclspub : k.params.cls = KPClass.rsaPublic ∨
      k.params.cls = KPClass.ed25519Public := by
    rcases hcases with ⟨_, h⟩ | ⟨_, h⟩
    · exact Or.inl h
    · exact Or.inr h
  have hheaderok : fid_fields_ok header_fid k.header = true := by
    rw [fid_fields_ok, List.all_eq_true]
    intro nf hnf
    rw [header_fid, List.mem_singleton] at hnf
    subst hnf
    rw [hlk]
    exact hktvalid
  obtain ⟨hw, hhw, hhr⟩ := write_read_fid header_fid k.header hheaderok
  rw [valid_params_for, Bool.and_eq_true] at hparams
  obtain ⟨hfieldsok, hcov⟩ := hparams
  obtain ⟨pw, hpw, hpr⟩ := write_read_fid _ k.params.data hfieldsok
  have hwnil : ∀ d, write_from_format_instructions_dict [] d = some [] :=
    fun _ => rfl
  have hpack : pack_public k = some (hw ++ pw ++ []) := by
    simp only [pack_public, hhw, hpw, hwnil]
  have hprojH : dict_project header_fid k.header = [("key_type", Value.str kt)] := by
    simp [dict_project, header_fid, hlk]
  have hlk2 : (dict_project header_fid k.header).lookup "key_type" =
      some (Value.str kt) := by
    rw [hprojH]
    simp [List.lookup]
  have hcheckH : check_dict_matches_format_instructions_dict
      (dict_project header_fid k.header) header_fid = [] :=
    check_clean _ _ (fid_fields_ok_project _ _ hheaderok)
  obtain ⟨ws₂, hws₂, hnoexcess⟩ := check_params_ok_public k.params.cls
    (dict_project (public_format_instructions_dict k.params.cls) k.params.data)
    hclspub (fid_fields_ok_project _ _ hfieldsok)
  have hfb : from_bytes .pub ((hw ++ pw ++ []) ++ t) =
      (if t = [] then
        .ok (⟨.pub, dict_project header_fid k.header,
          ⟨k.params.cls, dict_project
            (public_format_instructions_dict k.params.cls) k.params.data⟩,
          [], none⟩, [] ++ ws₂ ++ [])
      else
        .ok (⟨.pub, dict_project header_fid k.header,
          ⟨k.params.cls, dict_project
            (public_format_instructions_dict k.params.cls) k.params.data⟩,
          [], some t⟩, ([] ++ ws₂ ++ []) ++ [.excess_bytes])) := by
    have harr : (hw ++ pw ++ []) ++ t = hw ++ (pw ++ t) := by simp
    have hchknil : ∀ d, check_dict_matches_format_instructions_dict d [] = [] :=
      fun _ => rfl
    rw [harr, from_bytes, hhr (pw ++ t)]
    simp only [hlk2, key_params_class, hreg, body_fid, hpr t,
      read_from_format_instructions_dict, key_init, hcheckH, hws₂, footer_fid,
      hchknil]
  have hbeqK : key_beq ⟨.pub, dict_project header_fid k.header,
      ⟨k.params.cls, dict_project
        (public_format_instructions_dict k.params.cls) k.params.data⟩,
      [], none⟩ k = true := by
    rw [key_beq]
    simp only [Bool.and_eq_true]
    refine ⟨⟨⟨?_, ?_⟩, ?_⟩, ?_⟩
    · rw [hkind]
      rfl
    · have hcovH : ∀ s ∈ k.header.map Prod.fst, s ∈ header_fid.map Prod.fst := by
        intro s hs
        rw [header_fid]
        simp [hkeys s hs]
      exact dict_beq_project header_fid k.header hcovH
    · rw [params_beq]
      have hcovP : ∀ s ∈ k.params.data.map Prod.fst,
          s ∈ (public_format_instructions_dict k.params.cls).map Prod.fst := by
        rw [List.all_eq_true] at hcov
        intro s hs
        exact of_decide_eq_true (hcov s hs)
      exact dict_beq_project _ k.params.data hcovP
    · rw [hfoot']
      rfl
  by_cases ht : t = []
  · subst ht
    refine ⟨hw ++ pw ++ [], _, [] ++ ws₂ ++ [], hpack, ?_, hbeqK, rfl, ?_⟩
    · rw [hfb, if_pos rfl]
    · simp only [ne_eq, not_true_eq_false, iff_false]
      simpa using hnoexcess
  · refine ⟨hw ++ pw ++ [],
      ⟨.pub, dict_project header_fid k.header,
        ⟨k.params.cls, dict_project
          (public_format_instructions_dict k.params.cls) k.params.data⟩,
        [], some t⟩,
      ([] ++ ws₂ ++ []) ++ [.excess_bytes], hpack, ?_, ?_, ?_, ?_⟩
    · rw [hfb, if_neg ht]
    · exact hbeqK
    · rw [if_neg ht]
    · simp [ht]

theorem pack_private_decodes (k : Key) (t : List Nat)
    (hk : valid_private_key k = true) :
    ∃ w k' ws, pack_private k = some w ∧
      from_bytes .priv (w ++ t) = .ok (k', ws) ∧
      key_beq k' k = true ∧
      k'.remainder = (if t = [] then none else some t) ∧
      (Warning.excess_bytes ∈ ws ↔ t ≠ []) := by
  rw [valid_private_key] at hk
  simp only [Bool.and_eq_true, beq_iff_eq, List.all_eq_true] at hk
  obtain ⟨⟨⟨⟨⟨hkind, hhead⟩, hkeys⟩, hparams⟩, hcmt⟩, hfkeys⟩ := hk
  rcases hlk : k.header.lookup "key_type" with _ | v
  · rw [hlk] at hhead
    exact absurd hhead (by simp)
  rw [hlk] at hhead
  cases v with
  | int i => exact absurd hhead (by simp)
  | bytes b => exact absurd hhead (by simp)
  | str kt =>
  rcases hlc : k.footer.lookup "comment" with _ | fv
  · rw [hlc] at hcmt
    exact absurd hcmt (by simp)
  rw [hlc] at hcmt
  cases fv with
  | int i => exact absurd hcmt (by simp)
  | bytes b => exact absurd hcmt (by simp)
  | str c =>
  have hclen : c.length < 4294967296 := by simpa using hcmt
  have hreg : create_private_key_params kt = some k.params.cls := by
    simpa using hhead
  have hcases := create_private_key_params_cases kt _ hreg
  have hktvalid : valid_value .string (.str kt) = true := by
    refine valid_key_type_string kt ?_
    rcases hcases with ⟨h, _⟩ | ⟨h, _⟩
    · exact Or.inl h
    · exact Or.inr h
  have hclspriv : k.params.cls = KPClass.rsaPrivate ∨
      k.params.cls = KPClass.ed25519Private := by
    rcases hcases with ⟨_, h⟩ | ⟨_, h⟩
    · exact Or.inl h
    · exact Or.inr h
  have hheaderok : fid_fields_ok header_fid k.header = true := by
    rw [fid_fields_ok, List.all_eq_true]
    intro nf hnf
    rw [header_fid, List.mem_singleton] at hnf
    subst hnf
    rw [hlk]
    exact hktvalid
  have hfooterok : fid_fields_ok (footer_fid .priv) k.footer = true := by
    rw [fid_fields_ok, List.all_eq_true]
    intro nf hnf
    rw [footer_fid, List.mem_singleton] at hnf
    subst hnf
    rw [hlc]
    simpa [valid_value] using hclen
  obtain ⟨hw, hhw, hhr⟩ := write_read_fid header_fid k.header hheaderok
  rw [valid_params_for, Bool.and_eq_true] at hparams
  obtain ⟨hfieldsok, hcov⟩ := hparams
  obtain ⟨pw, hpw, hpr⟩ := write_read_fid _ k.params.data hfieldsok
  obtain ⟨fw, hfw, hfr⟩ := write_read_fid (footer_fid .priv) k.footer hfooterok
  have hpack : pack_private k = some (hw ++ pw ++ fw) := by
    simp only [pack_private, hhw, hpw, hfw]
  have hprojH : dict_project header_fid k.header = [("key_type", Value.str kt)] := by
    simp [dict_project, header_fid, hlk]
  have hlk2 : (dict_project header_fid k.header).lookup "key_type" =
      some (Value.str kt) := by
    rw [hprojH]
    simp [List.lookup]
  have hcheckH : check_dict_matches_format_instructions_dict
      (dict_project header_fid k.header) header_fid = [] :=
    check_clean _ _ (fid_fields_ok_project _ _ hheaderok)
  have hcheckF : check_dict_matches_format_instructions_dict
      (dict_project (footer_fid .priv) k.footer) (footer_fid .priv) = [] :=
    check_clean _ _ (fid_fields_ok_project _ _ hfooterok)
  obtain ⟨ws₂, hws₂, hnoexcess⟩ := check_params_ok_private k.params.cls
    (dict_project (private_format_instructions_dict k.params.cls) k.params.data)
    hclspriv (fid_fields_ok_project _ _ hfieldsok)
  have hfb : from_bytes .priv ((hw ++ pw ++ fw) ++ t) =
      (if t = [] then
        .ok (⟨.priv, dict_project header_fid k.header,
          ⟨k.params.cls, dict_project
            (private_format_instructions_dict k.params.cls) k.params.data⟩,
          dict_project (footer_fid .priv) k.footer, none⟩, [] ++ ws₂ ++ [])
      else
        .ok (⟨.priv, dict_project header_fid k.header,
          ⟨k.params.cls, dict_project
            (private_format_instructions_dict k.params.cls) k.params.data⟩,
          dict_project (footer_fid .priv) k.footer, some t⟩,
          ([] ++ ws₂ ++ []) ++ [.excess_bytes])) := by
    have harr : (hw ++ pw ++ fw) ++ t = hw ++ (pw ++ (fw ++ t)) := by simp
    rw [harr, from_bytes, hhr (pw ++ (fw ++ t))]
    simp only [hlk2, key_params_class, hreg, body_fid, hpr (fw ++ t), hfr t,
      key_init, hcheckH, hws₂, hcheckF]
  have hbeqK : key_beq ⟨.priv, dict_project header_fid k.header,
      ⟨k.params.cls, dict_project
        (private_format_instructions_dict k.params.cls) k.params.data⟩,
      dict_project (footer_fid .priv) k.footer, none⟩ k = true := by
    rw [key_beq]
    simp only [Bool.and_eq_true]
    refine ⟨⟨⟨?_, ?_⟩, ?_⟩, ?_⟩
    · rw [hkind]
      rfl
    · have hcovH : ∀ s ∈ k.header.map Prod.fst, s ∈ header_fid.map Prod.fst := by
        intro s hs
        rw [header_fid]
        simp [hkeys s hs]
      exact dict_beq_project header_fid k.header hcovH
    · rw [params_beq]
      have hcovP : ∀ s ∈ k.params.data.map Prod.fst,
          s ∈ (private_format_instructions_dict k.params.cls).map Prod.fst := by
        rw [List.all_eq_true] at hcov
        intro s hs
        exact of_decide_eq_true (hcov s hs)
      exact dict_beq_project _ k.params.data hcovP
    · have hcovF : ∀ s ∈ k.footer.map Prod.fst,
          s ∈ (footer_fid .priv).map Prod.fst := by
        intro s hs
        rw [footer_fid]
        simp [hfkeys s hs]
      exact dict_beq_project _ k.footer hcovF
  by_cases ht : t = []
  · subst ht
    refine ⟨hw ++ pw ++ fw, _, [] ++ ws₂ ++ [], hpack, ?_, hbeqK, rfl, ?_⟩
    · rw [hfb, if_pos rfl]
    · simp only [ne_eq, not_true_eq_false, iff_false]
      simpa using hnoexcess
  · refine ⟨hw ++ pw ++ fw,
      ⟨.priv, dict_project header_fid k.header,
        ⟨k.params.cls, dict_project
          (private_format_instructions_dict k.params.cls) k.params.data⟩,
        dict_project (footer_fid .priv) k.footer, some t⟩,
      ([] ++ ws₂ ++ []) ++ [.excess_bytes], hpack, ?_, ?_, ?_, ?_⟩
    · rw [hfb, if_neg ht]
    · exact hbeqK
    · rw [if_neg ht]
    · simp [ht]

theorem write_fid_congr (fid : FormatInstructionsDict) (d₁ d₂ : Dict)
    (h : ∀ s ∈ fid.map Prod.fst, d₁.lookup s = d₂.lookup s) :
    write_from_format_instructions_dict fid d₁ =
      write_from_format_instructions_dict fid d₂ := by
  induction fid with
  | nil => rfl
  | cons nf fid ih =>
    have hn : d₁.lookup nf.1 = d₂.lookup nf.1 := h nf.1 (by simp)
    have ih' := ih fun s hs => h s (by simp [hs])
    rw [write_from_format_instructions_dict, write_from_format_instructions_dict,
      hn, ih']

/-! ## The claims -/

/-- C1: for every validly constructed key envelope whose `key_type` is
registered, decoding the bytes produced by encoding it yields an envelope
equal to it: `PublicKey.from_bytes(k.pack_public()) == k` for public
envelopes and `PrivateKey.from_bytes(k.pack_private()) == k` for private
envelopes — header, params and footer all round-trip. -/
theorem C1_envelope_roundtrip (k : Key) :
    (valid_public_key k = true →
      ∃ w k' ws, pack_public k = some w ∧
        from_bytes .pub w = .ok (k', ws) ∧ key_beq k' k = true) ∧
    (valid_private_key k = true →
      ∃ w k' ws, pack_private k = some w ∧
        from_bytes .priv w = .ok (k', ws) ∧ key_beq k' k = true) := by
  constructor
  · intro hk
    obtain ⟨w, k', ws, hp, hf, hb, _, _⟩ := pack_public_decodes k [] hk
    rw [List.append_nil] at hf
    exact ⟨w, k', ws, hp, hf, hb⟩
  · intro hk
    obtain ⟨w, k', ws, hp, hf, hb, _, _⟩ := pack_private_decodes k [] hk
    rw [List.append_nil] at hf
    exact ⟨w, k', ws, hp, hf, hb⟩

theorem C1_envelope_roundtrip_witness :
    valid_public_key sample_rsa_public_key = true ∧
    valid_private_key sample_ed25519_private_key = true ∧
    (∃ w k' ws, pack_public sample_rsa_public_key = some w ∧
      from_bytes .pub w = .ok (k', ws) ∧
      key_beq k' sample_rsa_public_key = true) ∧
    (∃ w k' ws, pack_private sample_ed25519_private_key = some w ∧
      from_bytes .priv w = .ok (k', ws) ∧
      key_beq k' sample_ed25519_private_key = true) :=
  ⟨by decide, by decide,
   (C1_envelope_roundtrip sample_rsa_public_key).1 (by decide),
   (C1_envelope_roundtrip sample_ed25519_private_key).2 (by decide)⟩

/-- C6: for every validly constructed envelope, public or private, decoding
`encode(k) ++ trailer` with a non-empty trailer succeeds, returns an
envelope equal to `k` whose `remainder` attribute equals the trailer, and
emits the `ExcessBytes` warning; decoding exactly `encode(k)` emits no such
warning and sets no remainder. -/
theorem C6_excess_bytes_preserved (k : Key) (t : List Nat) (ht : t ≠ []) :
    (valid_public_key k = true →
      ∃ w k₁ ws₁ k₂ ws₂, pack_public k = some w ∧
        from_bytes .pub (w ++ t) = .ok (k₁, ws₁) ∧ key_beq k₁ k = true ∧
        k₁.remainder = some t ∧ Warning.excess_bytes ∈ ws₁ ∧
        from_bytes .pub w = .ok (k₂, ws₂) ∧ k₂.remainder = none ∧
        Warning.excess_bytes ∉ ws₂) ∧
    (valid_private_key k = true →
      ∃ w k₁ ws₁ k₂ ws₂, pack_private k = some w ∧
        from_bytes .priv (w ++ t) = .ok (k₁, ws₁) ∧ key_beq k₁ k = true ∧
        k₁.remainder = some t ∧ Warning.excess_bytes ∈ ws₁ ∧
        from_bytes .priv w = .ok (k₂, ws₂) ∧ k₂.remainder = none ∧
        Warning.excess_bytes ∉ ws₂) := by
  constructor
  · intro hk
    obtain ⟨w, k₁, ws₁, hp, hf, hb, hrem, hws⟩ := pack_public_decodes k t hk
    obtain ⟨w', k₂, ws₂, hp', hf', hb', hrem', hws'⟩ := pack_public_decodes k [] hk
    have hww : w' = w := by
      rw [hp] at hp'
      exact (Option.some.inj hp').symm
    rw [List.append_nil, hww] at hf'
    refine ⟨w, k₁, ws₁, k₂, ws₂, hp, hf, hb, ?_, hws.mpr ht, hf', ?_, ?_⟩
    · rw [hrem, if_neg ht]
    · rw [hrem']
      rfl
    · intro hmem
      exact (hws'.mp hmem) rfl
  · intro hk
    obtain ⟨w, k₁, ws₁, hp, hf, hb, hrem, hws⟩ := pack_private_decodes k t hk
    obtain ⟨w', k₂, ws₂, hp', hf', hb', hrem', hws'⟩ := pack_private_decodes k [] hk
    have hww : w' = w := by
      rw [hp] at hp'
      exact (Option.some.inj hp').symm
    rw [List.append_nil, hww] at hf'
    refine ⟨w, k₁, ws₁, k₂, ws₂, hp, hf, hb, ?_, hws.mpr ht, hf', ?_, ?_⟩
    · rw [hrem, if_neg ht]
    · rw [hrem']
      rfl
    · intro hmem
      exact (hws'.mp hmem) rfl

theorem C6_excess_bytes_preserved_witness :
    ([7, 7] : List Nat) ≠ [] ∧
    valid_public_key sample_rsa_public_key = true ∧
    valid_private_key sample_ed25519_private_key = true ∧
    (∃ w k₁ ws₁ k₂ ws₂, pack_public sample_rsa_public_key = some w ∧
      from_bytes .pub (w ++ [7, 7]) = .ok (k₁, ws₁) ∧
      key_beq k₁ sample_rsa_public_key = true ∧
      k₁.remainder = some [7, 7] ∧ Warning.excess_bytes ∈ ws₁ ∧
      from_bytes .pub w = .ok (k₂, ws₂) ∧ k₂.remainder = none ∧
      Warning.excess_bytes ∉ ws₂) ∧
    (∃ w k₁ ws₁ k₂ ws₂, pack_private sample_ed25519_private_key = some w ∧
      from_bytes .priv (w ++ [7, 7]) = .ok (k₁, ws₁) ∧
      key_beq k₁ sample_ed25519_private_key = true ∧
      k₁.remainder = some [7, 7] ∧ Warning.excess_bytes ∈ ws₁ ∧
      from_bytes .priv w = .ok (k₂, ws₂) ∧ k₂.remainder = none ∧
      Warning.excess_bytes ∉ ws₂) :=
  ⟨by decide, by decide, by decide,
   (C6_excess_bytes_preserved sample_rsa_public_key [7, 7] (by decide)).1
     (by decide),
   (C6_excess_bytes_preserved sample_ed25519_private_key [7, 7] (by decide)).2
     (by decide)⟩

/-- C7: an input whose header parses to a `key_type` with no registry entry
fails with the `UnknownKeyType` error kind and produces no envelope (the
result is an error, not a key). -/
theorem C7_unknown_key_type (bs kt r : List Nat)
    (hhdr : read_from_format_instructions_dict header_fid bs =
      some ([("key_type", Value.str kt)], r))
    (hreg : create_public_key_params kt = none) :
    from_bytes .pub bs = .error (.unknown_key_type (.str kt)) := by
  have hlk : List.lookup "key_type" [("key_type", Value.str kt)] =
      some (Value.str kt) := by
    simp [List.lookup]
  rw [from_bytes, hhdr]
  simp only [hlk, key_params_class, hreg]

theorem C7_unknown_key_type_witness :
    read_from_format_instructions_dict header_fid
      [0, 0, 0, 4, 120, 120, 120, 120] =
      some ([("key_type", Value.str (ascii "xxxx"))], []) ∧
    create_public_key_params (ascii "xxxx") = none ∧
    from_bytes .pub [0, 0, 0, 4, 120, 120, 120, 120] =
      .error (.unknown_key_type (.str (ascii "xxxx"))) :=
  ⟨by decide, by decide,
   C7_unknown_key_type [0, 0, 0, 4, 120, 120, 120, 120] (ascii "xxxx") []
     (by decide) (by decide)⟩

/-- C3: the soft Ed25519 length check behaves as claimed — a 31-byte public
key constructs successfully with a warning naming length 32 — but the
claim's universal no-failure guarantee is violated by the code: constructing
Ed25519 private params from a mapping that contains `private_public` but
lacks `public` raises `KeyError` (`key_params.py`, line 372 accesses
`self.data['public']` unguarded), so construction fails with an error rather
than at most warnings. -/
theorem C3_construction_failure :
    create_params .ed25519Public [("public", .bytes (List.replicate 31 170))] =
      .ok (⟨.ed25519Public, [("public", .bytes (List.replicate 31 170))]⟩,
        [.public_key_not_of_length 32]) ∧
    create_params .ed25519Private
      [("private_public", .bytes (List.replicate 64 0))] =
      .error (.key_error "public") :=
  ⟨by decide, by decide⟩

/-- C4 (as stated) is false: parameter classes inherit `Mapping.__eq__`,
which compares the underlying mappings only, so an RSA public parameters
object and a DSS public parameters object with identical mappings compare
equal even though their variants differ; both construct successfully (the
DSS one with only missing-field warnings). -/
theorem C4_counterexample :
    params_beq ⟨.rsaPublic, [("e", .int 1), ("n", .int 2)]⟩
      ⟨.dssPublic, [("e", .int 1), ("n", .int 2)]⟩ = true ∧
    KPClass.rsaPublic ≠ KPClass.dssPublic ∧
    create_params .rsaPublic [("e", .int 1), ("n", .int 2)] =
      .ok (⟨.rsaPublic, [("e", .int 1), ("n", .int 2)]⟩, []) ∧
    create_params .dssPublic [("e", .int 1), ("n", .int 2)] =
      .ok (⟨.dssPublic, [("e", .int 1), ("n", .int 2)]⟩,
        [.missing_field "p", .missing_field "q", .missing_field "g",
         .missing_field "y"]) := by
  refine ⟨by decide, by decide, by decide, by decide⟩

/-- C4 (amended): two parameter objects compare equal iff their underlying
field mappings agree on every key; the variant class does not participate in
the comparison. -/
theorem C4_params_eq_iff (a b : ParamsObj) :
    params_beq a b = true ↔ ∀ s, a.data.lookup s = b.data.lookup s := by
  rw [params_beq]
  exact dict_beq_iff a.data b.data

/-- C10: `PublicKey.__eq__` demands the identical concrete class and equal
header, params and footer; consequently a `PrivateKey` never compares equal
to a `PublicKey` in either direction, even with equal header, params and
footer. -/
theorem C10_key_eq_requires_class (a b : Key) :
    (key_beq a b = true ↔
      a.kind = b.kind ∧ dict_beq a.header b.header = true ∧
        params_beq a.params b.params = true ∧
        dict_beq a.footer b.footer = true) ∧
    (a.kind ≠ b.kind → key_beq a b = false ∧ key_beq b a = false) := by
  constructor
  · rw [key_beq]
    simp [Bool.and_eq_true, beq_iff_eq, and_assoc]
  · intro hne
    constructor
    · have hb : (a.kind == b.kind) = false := by
        simp only [beq_eq_false_iff_ne, ne_eq]
        exact hne
      rw [key_beq, hb]
      simp
    · have hb : (b.kind == a.kind) = false := by
        simp only [beq_eq_false_iff_ne, ne_eq]
        exact fun hkk => hne hkk.symm
      rw [key_beq, hb]
      simp

theorem C10_key_eq_requires_class_witness :
    sample_pub_envelope.kind ≠ sample_priv_envelope.kind ∧
    sample_pub_envelope.header = sample_priv_envelope.header ∧
    sample_pub_envelope.params = sample_priv_envelope.params ∧
    sample_pub_envelope.footer = sample_priv_envelope.footer ∧
    key_beq sample_pub_envelope sample_priv_envelope = false ∧
    key_beq sample_priv_envelope sample_pub_envelope = false :=
  ⟨by decide, by decide, by decide, by decide,
   ((C10_key_eq_requires_class sample_pub_envelope sample_priv_envelope).2
     (by decide)).1,
   ((C10_key_eq_requires_class sample_pub_envelope sample_priv_envelope).2
     (by decide)).2⟩

/-- C9: a parameter object constructed with fields beyond its schema retains
them as stored data, but `pack_public` writes only the schema's fields: two
envelopes agreeing on class, header, footer and every schema field encode to
identical bytes whatever extra fields they carry. -/
theorem C9_extra_fields_not_written :
    (∀ cls d p ws, create_params cls d = .ok (p, ws) → p.data = d) ∧
    (∀ k₁ k₂ : Key, k₁.params.cls = k₂.params.cls → k₁.header = k₂.header →
      k₁.footer = k₂.footer →
      (∀ s ∈ (public_format_instructions_dict k₁.params.cls).map Prod.fst,
        k₁.params.data.lookup s = k₂.params.data.lookup s) →
      pack_public k₁ = pack_public k₂) := by
  constructor
  · intro cls d p ws h
    rw [create_params] at h
    rcases hc : check_params_are_valid cls d with e | ws'
    · rw [hc] at h
      exact absurd h (by simp)
    · rw [hc] at h
      simp only [Except.ok.injEq, Prod.mk.injEq] at h
      rw [← h.1]
  · intro k₁ k₂ hcls hhdr hftr hlook
    rw [pack_public, pack_public, hhdr, hftr, hcls,
      write_fid_congr _ k₁.params.data k₂.params.data (hcls ▸ hlook)]

theorem C9_extra_fields_not_written_witness :
    sample_extra_key.params.data.lookup "extra" = some (.bytes [1]) ∧
    (⟨.rsaPublic, sample_extra_key.params.data⟩ : ParamsObj).data =
      sample_extra_key.params.data ∧
    pack_public sample_plain_key = pack_public sample_extra_key ∧
    pack_public sample_plain_key =
      some (ascii "\x00\x00\x00\x07ssh-rsa\x00\x00\x00\x01\x03\x00\x00\x00\x01\x05") :=
  ⟨by decide,
   C9_extra_fields_not_written.1 .rsaPublic sample_extra_key.params.data
     ⟨.rsaPublic, sample_extra_key.params.data⟩ [] (by decide),
   C9_extra_fields_not_written.2 sample_plain_key sample_extra_key
     rfl rfl rfl (by decide),
   by decide⟩

/-- C8: `convert_to` walks the method resolution order from most specific to
the public base, invoking at each level the first adapter whose registered
type is a subclass of the destination; it equals the first match of the
level-by-level flattened candidate list, and it fails with the
`UnsupportedConversion` kind exactly when no level has a matching adapter. -/
theorem C8_convert_to_resolution (cls : ConvCls) (t : CTypeTok) :
    (convert_to cls t =
      match convert_to_spec cls t with
      | some a => .ok a
      | none => .error .unsupported_conversion) ∧
    (convert_to cls t = .error .unsupported_conversion ↔
      ∀ sc ∈ mro cls, ∀ c ∈ conversion_functions sc,
        is_subclass c t = false) := by
  cases cls <;> cases t <;> exact ⟨by decide, by decide⟩

theorem C8_convert_to_resolution_witness :
    (convert_to .dssPrivateC .dsaPublicKey =
      match convert_to_spec .dssPrivateC .dsaPublicKey with
      | some a => .ok a
      | none => .error .unsupported_conversion) ∧
    (convert_to .dssPrivateC .dsaPublicKey = .error .unsupported_conversion ↔
      ∀ sc ∈ mro .dssPrivateC, ∀ c ∈ conversion_functions sc,
        is_subclass c .dsaPublicKey = false) :=
  C8_convert_to_resolution .dssPrivateC .dsaPublicKey

/-- C2: the full factory returns, for every registered identifier —
certificate identifiers included — the registered public variant; where a
private form exists the private lookup returns it; for every certificate
identifier the private lookup fails with the `NoPrivateForKeyType` kind,
which is distinct from the `UnknownKeyType` failure an unregistered
identifier produces. -/
theorem C2_factory_lookup :
    public_variant_for (ascii "ssh-rsa") = .ok .rsaPublic ∧
    private_variant_for (ascii "ssh-rsa") = .ok .rsaPrivate ∧
    public_variant_for (ascii "ssh-ed25519") = .ok .ed25519Public ∧
    private_variant_for (ascii "ssh-ed25519") = .ok .ed25519Private ∧
    public_variant_for (ascii "ssh-dss") = .ok .dssPublic ∧
    private_variant_for (ascii "ssh-dss") = .ok .dssPrivate ∧
    public_variant_for (ascii "ecdsa-sha2-nistp256") = .ok .ecdsaNistp256Public ∧
    private_variant_for (ascii "ecdsa-sha2-nistp256") = .ok .ecdsaNistp256Private ∧
    public_variant_for (ascii "ecdsa-sha2-nistp384") = .ok .ecdsaNistp384Public ∧
    private_variant_for (ascii "ecdsa-sha2-nistp384") = .ok .ecdsaNistp384Private ∧
    public_variant_for (ascii "ecdsa-sha2-nistp521") = .ok .ecdsaNistp521Public ∧
    private_variant_for (ascii "ecdsa-sha2-nistp521") = .ok .ecdsaNistp521Private ∧
    public_variant_for (ascii "sk-ssh-ed25519@openssh.com") = .ok .skEd25519Public ∧
    private_variant_for (ascii "sk-ssh-ed25519@openssh.com") = .ok .skEd25519Private ∧
    public_variant_for (ascii "sk-ecdsa-sha2-nistp256@openssh.com") =
      .ok .skEcdsaNistp256Public ∧
    private_variant_for (ascii "sk-ecdsa-sha2-nistp256@openssh.com") =
      .ok .skEcdsaNistp256Private ∧
    public_variant_for (ascii "ssh-rsa-cert-v01@openssh.com") =
      .ok .certRsaPublic ∧
    private_variant_for (ascii "ssh-rsa-cert-v01@openssh.com") =
      .error .no_private_for_key_type ∧
    public_variant_for (ascii "ssh-ed25519-cert-v01@openssh.com") =
      .ok .certEd25519Public ∧
    private_variant_for (ascii "ssh-ed25519-cert-v01@openssh.com") =
      .error .no_private_for_key_type ∧
    public_variant_for (ascii "ssh-dss-cert-v01@openssh.com") =
      .ok .certDssPublic ∧
    private_variant_for (ascii "ssh-dss-cert-v01@openssh.com") =
      .error .no_private_for_key_type ∧
    public_variant_for (ascii "ecdsa-sha2-nistp256-cert-v01@openssh.com") =
      .ok .certEcdsaNistp256Public ∧
    private_variant_for (ascii "ecdsa-sha2-nistp256-cert-v01@openssh.com") =
      .error .no_private_for_key_type ∧
    public_variant_for (ascii "ecdsa-sha2-nistp384-cert-v01@openssh.com") =
      .ok .certEcdsaNistp384Public ∧
    private_variant_for (ascii "ecdsa-sha2-nistp384-cert-v01@openssh.com") =
      .error .no_private_for_key_type ∧
    public_variant_for (ascii "ecdsa-sha2-nistp521-cert-v01@openssh.com") =
      .ok .certEcdsaNistp521Public ∧
    private_variant_for (ascii "ecdsa-sha2-nistp521-cert-v01@openssh.com") =
      .error .no_private_for_key_type ∧
    public_variant_for (ascii "sk-ssh-ed25519-cert-v01@openssh.com") =
      .ok .certSkEd25519Public ∧
    private_variant_for (ascii "sk-ssh-ed25519-cert-v01@openssh.com") =
      .error .no_private_for_key_type ∧
    public_variant_for (ascii "sk-ecdsa-sha2-nistp256-cert-v01@openssh.com") =
      .ok .certSkEcdsaNistp256Public ∧
    private_variant_for (ascii "sk-ecdsa-sha2-nistp256-cert-v01@openssh.com") =
      .error .no_private_for_key_type ∧
    private_variant_for (ascii "xxxx") =
      .error (.unknown_key_type (.str (ascii "xxxx"))) ∧
    PyErr.no_private_for_key_type ≠
      PyErr.unknown_key_type (.str (ascii "ssh-rsa-cert-v01@openssh.com")) := by
  refine ⟨?_, ?_, ?_, ?_, ?_, ?_, ?_, ?_, ?_, ?_, ?_, ?_, ?_, ?_, ?_, ?_, ?_, ?_, ?_, ?_, ?_, ?_, ?_, ?_, ?_, ?_, ?_, ?_, ?_, ?_, ?_, ?_, ?_, ?_⟩
  all_goals decide

/-- C5: every algorithm identifier the spec lists — the base algorithms, the
three ECDSA curves, the security-key variants and the certificate variants —
has a registry entry, so the public lookup returns the matching public
variant rather than failing. -/
theorem C5_registry_coverage :
    public_variant_for (ascii "ssh-rsa") = .ok .rsaPublic ∧
    public_variant_for (ascii "ssh-ed25519") = .ok .ed25519Public ∧
    public_variant_for (ascii "ssh-dss") = .ok .dssPublic ∧
    public_variant_for (ascii "ecdsa-sha2-nistp256") = .ok .ecdsaNistp256Public ∧
    public_variant_for (ascii "ecdsa-sha2-nistp384") = .ok .ecdsaNistp384Public ∧
    public_variant_for (ascii "ecdsa-sha2-nistp521") = .ok .ecdsaNistp521Public ∧
    public_variant_for (ascii "sk-ssh-ed25519@openssh.com") = .ok .skEd25519Public ∧
    public_variant_for (ascii "sk-ecdsa-sha2-nistp256@openssh.com") =
      .ok .skEcdsaNistp256Public ∧
    public_variant_for (ascii "ssh-rsa-cert-v01@openssh.com") = .ok .certRsaPublic ∧
    public_variant_for (ascii "ssh-ed25519-cert-v01@openssh.com") =
      .ok .certEd25519Public ∧
    public_variant_for (ascii "ssh-dss-cert-v01@openssh.com") = .ok .certDssPublic ∧
    public_variant_for (ascii "ecdsa-sha2-nistp256-cert-v01@openssh.com") =
      .ok .certEcdsaNistp256Public ∧
    public_variant_for (ascii "ecdsa-sha2-nistp384-cert-v01@openssh.com") =
      .ok .certEcdsaNistp384Public ∧
    public_variant_for (ascii "ecdsa-sha2-nistp521-cert-v01@openssh.com") =
      .ok .certEcdsaNistp521Public ∧
    public_variant_for (ascii "sk-ssh-ed25519-cert-v01@openssh.com") =
      .ok .certSkEd25519Public ∧
    public_variant_for (ascii "sk-ecdsa-sha2-nistp256-cert-v01@openssh.com") =
      .ok .certSkEcdsaNistp256Public := by
  decide

end OpensshKey
